import Mathlib

/-!
Verification of the SheetSync ingestion backend (`main.py`, `watch_excel.py`).

The Python sources are embedded shallowly:

* Python `str` cells are Lean `String`; `None`-able cells are `Option String`.
* `_norm`, `str.strip`, `str.lower` are modelled character by character on
  `String.data` (ASCII semantics, which covers every header/value the
  alias table and the claims mention).
* `row_hash` computes the SHA-256 of `"|".join(headers)` followed by
  `"|".join(str(x) for x in values)`.  The model exposes `row_hash_input`,
  the exact byte string fed to the digest: equal inputs force equal
  digests, and all dedup reasoning happens on this preimage.
* The SQLite `events` table is a Lean list of `Event` records; `INSERT`
  is `++ [e]`, the `SELECT ... LIMIT 1` of `already_processed` is `List.any`.
* Network effects (HubSpot search/create/update, `requests` responses,
  `time.sleep`) are passed in as explicit oracles, and the functions
  return what they would send/observe (status codes, sleep durations,
  whether any CRM endpoint was contacted).
-/

/-! ## Python string primitives (ASCII semantics) -/

/-- Model of Python ASCII whitespace as used by `str.strip()`. -/
def pyIsSpaceChar (c : Char) : Bool :=
  c == ' ' || c == '\t' || c == '\n' || c == '\x0d' || c == '\x0b' || c == '\x0c'

/-- Model of `str.lower` on one character (ASCII range, as in the data the
backend handles). -/
def pyToLowerChar (c : Char) : Char :=
  if 65 ≤ c.toNat ∧ c.toNat ≤ 90 then Char.ofNat (c.toNat + 32) else c

/-- `str.lower()`. -/
def pyLower (s : String) : String :=
  ⟨s.data.map pyToLowerChar⟩

/-- Strip leading and trailing whitespace from a character list. -/
def stripChars (l : List Char) : List Char :=
  ((l.dropWhile pyIsSpaceChar).reverse.dropWhile pyIsSpaceChar).reverse

/-- `str.strip()`. -/
def pyStrip (s : String) : String :=
  ⟨stripChars s.data⟩

/-- Model of Python `ch.isalnum()` for the ASCII range. -/
def pyIsAlnum (c : Char) : Bool :=
  c.isAlphanum

/-- `main.py` `_norm`: `"".join(ch for ch in str(s).strip().lower() if ch.isalnum())`. -/
def _norm (s : String) : String :=
  ⟨((stripChars s.data).map pyToLowerChar).filter pyIsAlnum⟩

/-- Python `str(x)` for an optional cell: `str(None)` is the string `"None"`. -/
def pyStr (v : Option String) : String :=
  match v with
  | none => "None"
  | some s => s

/-! ## Row fingerprint (`main.py` `row_hash`) -/

/-- Python `"|".join(l)`. -/
def pyJoinPipe : List String → String
  | [] => ""
  | [s] => s
  | s :: t :: rest => s ++ "|" ++ pyJoinPipe (t :: rest)

/-- The byte string `main.py`'s `row_hash` feeds to SHA-256:
`"|".join(str(x) for x in headers)` immediately followed by
`"|".join(str(x) for x in values)`.  The hex digest is a function of this
string, so the model reasons directly on it: equal inputs mean equal
digests, distinct inputs mean distinct digests absent a SHA-256 collision. -/
def row_hash_input (headers : List String) (values : List (Option String)) : String :=
  pyJoinPipe (headers.map (fun x => x)) ++ pyJoinPipe (values.map pyStr)

/-- Character-level `"|".join`, used to reason about `pyJoinPipe`. -/
def charJoin : List (List Char) → List Char
  | [] => []
  | [s] => s
  | s :: t :: rest => s ++ '|' :: charJoin (t :: rest)

/-- A cell that does not contain the `"|"` delimiter of `row_hash`. -/
def pipeFree (s : String) : Bool :=
  !(s.data.contains '|')

/-! ## Row mapper (`main.py` `map_row_to_contact`) -/

/-- `main.py` `HEADER_ALIASES` (the Python sets are used only for membership,
so lists are a faithful rendering). -/
def HEADER_ALIASES : List (String × List String) :=
  [("email", ["email", "e-mail", "mail"]),
   ("firstname", ["first name", "firstname", "first_name", "given name"]),
   ("lastname", ["last name", "lastname", "last_name", "surname"]),
   ("phone", ["phone", "phone number", "mobile", "mobile phone"]),
   ("company", ["company", "account", "organisation", "organization"])]

/-- The Python `contact` dict: fixed keys `email, firstname, lastname,
phone, company`, initialised to `""`. -/
structure Contact where
  email : String
  firstname : String
  lastname : String
  phone : String
  company : String
deriving DecidableEq, Repr

/-- `contact[prop] = v` for a canonical key; other keys leave the dict
unchanged (the code only ever writes the five canonical keys). -/
def setField (c : Contact) (k v : String) : Contact :=
  if k == "email" then { c with email := v }
  else if k == "firstname" then { c with firstname := v }
  else if k == "lastname" then { c with lastname := v }
  else if k == "phone" then { c with phone := v }
  else if k == "company" then { c with company := v }
  else c

/-- The keys of the `contact` dict, in insertion order. -/
def canonicalKeys : List String :=
  ["email", "firstname", "lastname", "phone", "company"]

/-- Explicit-mapping branch of `map_row_to_contact`: build `lower_map`
(filter to canonical keys, normalise the wanted header) and assign
`contact[prop] = vals[hnorm.index(wanted)]` when the wanted header occurs
and its index is in range. -/
def explicitFill (hnorm vals : List String) (m : List (String × String)) (c : Contact) : Contact :=
  (m.filter (fun kv => canonicalKeys.contains kv.1)).foldl
    (fun c kv =>
      let wanted := _norm kv.2
      if hnorm.contains wanted then
        let idx := hnorm.indexOf wanted
        if idx < vals.length then setField c kv.1 (vals.getD idx "") else c
      else c) c

/-- Heuristic branch of `map_row_to_contact`: for each canonical field,
take the value at the first header whose normalised form lies in the
field's alias set, breaking out of the scan at that header. -/
def heuristicFill (hnorm vals : List String) (c : Contact) : Contact :=
  HEADER_ALIASES.foldl
    (fun c pa =>
      let aliasNorms := pa.2.map _norm
      match hnorm.findIdx? (fun h => aliasNorms.contains h) with
      | some i => if i < vals.length then setField c pa.1 (vals.getD i "") else c
      | none => c) c

/-- The dict returned by `map_row_to_contact`: the five fixed keys in
insertion order, keeping only truthy (non-empty) values. -/
def contactProps (c : Contact) : List (String × String) :=
  [("email", c.email), ("firstname", c.firstname), ("lastname", c.lastname),
   ("phone", c.phone), ("company", c.company)].filter (fun kv => kv.2 ≠ "")

/-- `main.py` `map_row_to_contact(headers, values, mapping)`.  The returned
dict is rendered as its key/value list in dict order.  `if mapping:` is
Python truthiness: the explicit branch runs only for a present, non-empty
mapping. -/
def map_row_to_contact (headers : List String) (values : List (Option String))
    (mapping : Option (List (String × String))) : List (String × String) :=
  let vals := values.map (fun v => v.getD "")
  let hnorm := headers.map _norm
  let c0 : Contact := ⟨"", "", "", "", ""⟩
  let filled :=
    match mapping with
    | some m => if m.isEmpty then heuristicFill hnorm vals c0 else explicitFill hnorm vals m c0
    | none => heuristicFill hnorm vals c0
  contactProps { filled with email := pyLower (pyStrip filled.email) }

/-! ## HubSpot upsert (`main.py` `upsert_contact_to_hubspot`) -/

/-- Result dict of `upsert_contact_to_hubspot`. -/
inductive UpsertRes where
  | skippedRes (reason : String)
  | updated (id : String)
  | created (id : String)
deriving DecidableEq, Repr

/-- `{k: v for k, v in contact.items() if v not in (None, "")}` — the
property bag sent to the CRM create/update call. -/
def hubspotProps (contact : List (String × String)) : List (String × String) :=
  contact.filter (fun kv => kv.2 ≠ "")

/-- `main.py` `upsert_contact_to_hubspot(contact)`.  The two network
observations are oracles: `findRes` is the id (if any) returned by the
search endpoint, `newId` the id a create would return. -/
def upsert_contact_to_hubspot (contact : List (String × String))
    (findRes : Option String) (newId : String) : UpsertRes :=
  let email := pyLower (pyStrip ((contact.lookup "email").getD ""))
  if email = "" then .skippedRes "missing email"
  else
    match findRes with
    | some cid => .updated cid
    | none => .created newId

/-! ## SQLite events table (`main.py` `ensure_db` / `already_processed` / `log_event`) -/

/-- One row of the `events` table (the autoincrement id and timestamp are
not consulted by any code path modelled here). -/
structure Event where
  spreadsheet_id : String
  sheet_name : String
  row_index : Int
  r_hash : String
  hubspot_id : String
  action : String
  detail : String
deriving DecidableEq, Repr

/-- The `WHERE` clause of `already_processed`: all four key fields equal,
the `action` not consulted. -/
def eventMatches (e : Event) (sid sheet : String) (ri : Int) (h : String) : Bool :=
  e.spreadsheet_id == sid && e.sheet_name == sheet && e.row_index == ri && e.r_hash == h

/-- `main.py` `already_processed`: `SELECT 1 FROM events WHERE
spreadsheet_id=? AND sheet_name=? AND row_index=? AND row_hash=? LIMIT 1`
— existence of a matching row, whatever its `action`. -/
def already_processed (db : List Event) (sid sheet : String) (ri : Int) (h : String) : Bool :=
  db.any (fun e => eventMatches e sid sheet ri h)

/-- `main.py` `log_event`: append one row (detail truncated to 2000
characters, `hubspot_id or ""` applied by the caller side being total). -/
def log_event (db : List Event) (sid sheet : String) (ri : Int) (h hubspotId action detail : String) :
    List Event :=
  db ++ [⟨sid, sheet, ri, h, hubspotId, action, detail.take 2000⟩]

/-- Rendering of `str(contact)` used as the `detail` of an upsert event
(the detail text is never consulted by any modelled decision). -/
def detailOfContact (contact : List (String × String)) : String :=
  String.intercalate ", " (contact.map (fun kv => kv.1 ++ ": " ++ kv.2))

/-! ## Ingestion endpoint (`main.py` `ingest_rows`, body after the secret check) -/

/-- The JSON bodies `/ingest/rows` can answer with (the error case models
the re-raised exception). -/
inductive IngestResp where
  | dup
  | skippedNoEmail
  | upserted (r : UpsertRes)
deriving DecidableEq, Repr

/-- What one ingestion call produced: the events table afterwards, the
response (`Except.error` = the exception re-raised from the `except`
block), and whether any CRM endpoint was contacted. -/
structure IngestOut where
  db : List Event
  resp : Except String IngestResp
  crmContacted : Bool
deriving Repr

/-- `main.py` line 262: `"updated" if res.get("updated") else "created" if
res.get("created") else "unknown"`. -/
def actionOfUpsert : UpsertRes → String
  | .updated _ => "updated"
  | .created _ => "created"
  | .skippedRes _ => "unknown"

/-- `res.get("id", "")` on the upsert result dict. -/
def idOfUpsert : UpsertRes → String
  | .updated i => i
  | .created i => i
  | .skippedRes _ => ""

/-- `main.py` `ingest_rows` after the bridge-secret check.  `crm` is the
network oracle: `.error e` is an exception raised inside the try block by
the HubSpot client (credential missing, 4xx/5xx surfaced as
`HTTPException`), `.ok (findRes, newId)` gives the search result and the
id a create would return.  `headersOpt.getD []` is `payload.headers or []`. -/
def ingest_rows (db : List Event) (sid sheet : String) (ri : Int)
    (headersOpt : Option (List String)) (values : List (Option String))
    (mapping : Option (List (String × String)))
    (crm : Except String (Option String × String)) : IngestOut :=
  let headers := headersOpt.getD []
  let r_hash := row_hash_input headers values
  if already_processed db sid sheet ri r_hash then
    ⟨log_event db sid sheet ri r_hash "" "duplicate" "", .ok .dup, false⟩
  else
    let contact := map_row_to_contact headers values mapping
    if ((contact.lookup "email").getD "").isEmpty then
      ⟨log_event db sid sheet ri r_hash "" "skipped" "missing email", .ok .skippedNoEmail, false⟩
    else
      match crm with
      | .error e =>
        ⟨log_event db sid sheet ri r_hash "" "error" e, .error e, true⟩
      | .ok (findRes, newId) =>
        let res := upsert_contact_to_hubspot contact findRes newId
        ⟨log_event db sid sheet ri r_hash (idOfUpsert res) (actionOfUpsert res)
           (detailOfContact contact),
         .ok (.upserted res), true⟩

/-! ## Retrying transport (`main.py` `_request_retry`) -/

/-- The retry condition: the code returns early exactly when
`status < 500 and status != 429`. -/
def retryableStatus (s : Nat) : Bool :=
  !(s < 500 && s != 429)

/-- `min(0.5 * (2 ** attempt), 6)`, rendered in milliseconds: every float
the Python expression produces is an exact dyadic (`0.5, 1, 2, 4, 6, ...`),
so `500 * 2 ^ attempt` capped at `6000` is an exact integer rescaling. -/
def backoffDelayMs (attempt : Nat) : Nat :=
  min (500 * 2 ^ attempt) 6000

/-- The observable outcome of `_request_retry`: final response status,
number of requests issued, and the sleeps performed (milliseconds, in
order). -/
structure RetryOut where
  status : Nat
  attempts : Nat
  sleeps : List Nat
deriving DecidableEq, Repr

/-- The `for attempt in range(5)` loop of `_request_retry`, with `resp n`
the status code of the `n`-th request.  When the fuel runs out the loop
falls through and returns the last response `r`. -/
def requestRetryGo (resp : Nat → Nat) : Nat → Nat → RetryOut
  | attempt, 0 => ⟨resp (attempt - 1), attempt, []⟩
  | attempt, fuel + 1 =>
    let s := resp attempt
    if retryableStatus s then
      let out := requestRetryGo resp (attempt + 1) fuel
      ⟨out.status, out.attempts, backoffDelayMs attempt :: out.sleeps⟩
    else ⟨s, attempt + 1, []⟩

/-- `main.py` `_request_retry`: five attempts starting at attempt 0. -/
def _request_retry (resp : Nat → Nat) : RetryOut :=
  requestRetryGo resp 0 5

/-! ## Debouncer (`watch_excel.py` `handle_change`, gate on `_last_event`) -/

/-- `DEBOUNCE_SECS = 1.0`. -/
def DEBOUNCE_SECS : ℚ := 1

/-- The debounce gate at the top of `handle_change`: given the stored
`_last_event` and the current `time.monotonic()`, return whether the event
is accepted and the new `_last_event`. -/
def handleChangeGate (lastEvent now : ℚ) : Bool × ℚ :=
  if now - lastEvent < DEBOUNCE_SECS then (false, lastEvent) else (true, now)

/-- Run the gate over a whole sequence of event timestamps, collecting the
timestamps of the accepted events. -/
def runDebounce : List ℚ → ℚ → List ℚ
  | [], _ => []
  | t :: ts, lastEvent =>
    let g := handleChangeGate lastEvent t
    if g.1 then t :: runDebounce ts g.2 else runDebounce ts g.2

/-! ## Stable file reader (`watch_excel.py` `read_table_any`) -/

/-- The temp copy produced by `copy_to_temp`, together with what each
decoder would do on it.  `τ` is the parsed table type (opacity of the
DataFrame contents); each decoder either yields a table or raises. -/
structure TmpFile (τ : Type) where
  suffix : String
  xlsxRead : Except String τ
  csvUtf8Read : Except String τ
  csvPyRead : Except String τ

/-- Outcome of `read_table_any`: `.ok (some t)` a parsed table, `.ok none`
the `None` return, `.error e` an exception escaping to the caller; plus
whether the temp copy was unlinked. -/
structure ReadOutcome (τ : Type) where
  result : Except String (Option τ)
  tmpDeleted : Bool

/-- `watch_excel.py` `read_table_any`: dispatch on the lowercased suffix;
the xlsx/xls branch has no handler, so a decoder error escapes; the csv
branch falls back to the python engine and only that fallback's error
escapes; unsupported suffixes return `None`.  The `finally` block deletes
the temp copy on every path, return or raise. -/
def read_table_any {τ : Type} (copyRes : Option (TmpFile τ)) : ReadOutcome τ :=
  match copyRes with
  | none => ⟨.ok none, false⟩
  | some tmp =>
    let suf := pyLower tmp.suffix
    let parsed : Except String (Option τ) :=
      if suf = ".xlsx" ∨ suf = ".xls" then
        match tmp.xlsxRead with
        | .ok t => .ok (some t)
        | .error e => .error e
      else if suf = ".csv" then
        match tmp.csvUtf8Read with
        | .ok t => .ok (some t)
        | .error _ =>
          match tmp.csvPyRead with
          | .ok t => .ok (some t)
          | .error e => .error e
      else .ok none
    ⟨parsed, true⟩

/-! ## Claims about the row mapper -/

/-- Claim C4: when an explicit mapping is supplied, heuristic alias
matching is not consulted for any field: with headers `["Email","First
Name"]`, values `["a@b.com","Ann"]` and mapping `{"lastname": "First
Name"}`, the result is exactly `{lastname: "Ann"}` — `lastname` is `"Ann"`
and neither `email` nor `firstname` is present although both headers match
heuristic aliases. -/
theorem explicit_mapping_ignores_heuristics :
    map_row_to_contact ["Email", "First Name"] [some "a@b.com", some "Ann"]
        (some [("lastname", "First Name")]) = [("lastname", "Ann")]
    ∧ (map_row_to_contact ["Email", "First Name"] [some "a@b.com", some "Ann"]
        (some [("lastname", "First Name")])).lookup "lastname" = some "Ann"
    ∧ (map_row_to_contact ["Email", "First Name"] [some "a@b.com", some "Ann"]
        (some [("lastname", "First Name")])).lookup "email" = none
    ∧ (map_row_to_contact ["Email", "First Name"] [some "a@b.com", some "Ann"]
        (some [("lastname", "First Name")])).lookup "firstname" = none := by
  decide

/-- Claim C5: with no explicit mapping, each canonical field takes the
value at the first header whose normalised form matches one of its
aliases: headers `["Mobile Phone","E-Mail"]` with values
`["555-1234","X@Y.com "]` map to exactly `{email: "x@y.com", phone:
"555-1234"}`. -/
theorem heuristic_mapping_first_match :
    map_row_to_contact ["Mobile Phone", "E-Mail"] [some "555-1234", some "X@Y.com "] none
      = [("email", "x@y.com"), ("phone", "555-1234")] := by
  decide

/-- Claim C10: an explicit mapping equal to the empty dict is falsy in
`if mapping:`, so it behaves exactly like supplying no mapping at all —
heuristic alias matching is consulted in both cases. -/
theorem empty_mapping_equals_no_mapping (headers : List String) (values : List (Option String)) :
    map_row_to_contact headers values (some []) = map_row_to_contact headers values none := rfl

/-! ## Claims about the fingerprint -/

/-- Claim C2, counterexample: the digest is SHA-256 of `row_hash_input`,
so equal inputs force equal digests — yet reordering the two distinct
headers `"a"` and `"a|a|a"` leaves the input unchanged (the `"|"`
delimiter occurs in the data), and moving the character `b` across the
header/value boundary (`["ab"],["c"]` vs `["a"],["bc"]`) also leaves it
unchanged.  Both refute "any change … yields a different digest". -/
theorem row_hash_collision_counterexample :
    row_hash_input ["a", "a|a|a"] [some "x"] = row_hash_input ["a|a|a", "a"] [some "x"]
    ∧ (["a", "a|a|a"] : List String) ≠ ["a|a|a", "a"]
    ∧ row_hash_input ["ab"] [some "c"] = row_hash_input ["a"] [some "bc"]
    ∧ (["ab"] : List String) ≠ ["a"] := by
  decide

/-! ## Claims about the retrying transport -/

/-- Claim C3: the transport issues at most 5 attempts; it retries exactly
on status ≥ 500 or 429 and returns at the first other status; the `k`-th
sleep (milliseconds) is `min(500·2^k, 6000)` and no sleep precedes the
first attempt; four 500s then a 200 succeed after exactly the four sleeps
0.5 s, 1 s, 2 s, 4 s; five 500s exhaust the loop and return the last
retryable response. -/
theorem retry_transport_correct (resp : Nat → Nat) :
    (∀ s, retryableStatus s = true ↔ 500 ≤ s ∨ s = 429)
    ∧ _request_retry (fun n => if n < 4 then 500 else 200)
        = ⟨200, 5, [500, 1000, 2000, 4000]⟩
    ∧ _request_retry (fun _ => 500) = ⟨500, 5, [500, 1000, 2000, 4000, 6000]⟩
    ∧ 1 ≤ (_request_retry resp).attempts
    ∧ (_request_retry resp).attempts ≤ 5
    ∧ (_request_retry resp).status = resp ((_request_retry resp).attempts - 1)
    ∧ (∀ j, j + 1 < (_request_retry resp).attempts → retryableStatus (resp j) = true)
    ∧ ((_request_retry resp).attempts < 5 →
        retryableStatus (resp ((_request_retry resp).attempts - 1)) = false)
    ∧ (_request_retry resp).sleeps
        = (List.range (_request_retry resp).sleeps.length).map backoffDelayMs
    ∧ (retryableStatus (resp 0) = false → _request_retry resp = ⟨resp 0, 1, []⟩) := by
  refine ⟨?_, by decide, by decide, ?_⟩
  · intro s
    simp [retryableStatus]
  by_cases h0 : retryableStatus (resp 0) = true
  · by_cases h1 : retryableStatus (resp 1) = true
    · by_cases h2 : retryableStatus (resp 2) = true
      · by_cases h3 : retryableStatus (resp 3) = true
        · by_cases h4 : retryableStatus (resp 4) = true
          · have hR : _request_retry resp = ⟨resp 4, 5, [backoffDelayMs 0, backoffDelayMs 1, backoffDelayMs 2, backoffDelayMs 3, backoffDelayMs 4]⟩ := by
              simp [_request_retry, requestRetryGo, h0, h1, h2, h3, h4]
            rw [hR]
            dsimp only
            refine ⟨by omega, by omega, rfl, ?_, ?_, rfl, ?_⟩
            · intro j hj
              have hb : j ≤ 3 := by omega
              interval_cases j <;> assumption
            · intro h
              exact absurd h (by omega)
            · intro hc
              simp [hc] at h0
          · simp only [Bool.not_eq_true] at h4
            have hR : _request_retry resp = ⟨resp 4, 5, [backoffDelayMs 0, backoffDelayMs 1, backoffDelayMs 2, backoffDelayMs 3]⟩ := by
              simp [_request_retry, requestRetryGo, h0, h1, h2, h3, h4]
            rw [hR]
            dsimp only
            refine ⟨by omega, by omega, rfl, ?_, ?_, rfl, ?_⟩
            · intro j hj
              have hb : j ≤ 3 := by omega
              interval_cases j <;> assumption
            · intro h
              exact absurd h (by omega)
            · intro hc
              simp [hc] at h0
        · simp only [Bool.not_eq_true] at h3
          have hR : _request_retry resp = ⟨resp 3, 4, [backoffDelayMs 0, backoffDelayMs 1, backoffDelayMs 2]⟩ := by
            simp [_request_retry, requestRetryGo, h0, h1, h2, h3]
          rw [hR]
          dsimp only
          refine ⟨by omega, by omega, rfl, ?_, ?_, rfl, ?_⟩
          · intro j hj
            have hb : j ≤ 2 := by omega
            interval_cases j <;> assumption
          · intro _
            exact h3
          · intro hc
            simp [hc] at h0
      · simp only [Bool.not_eq_true] at h2
        have hR : _request_retry resp = ⟨resp 2, 3, [backoffDelayMs 0, backoffDelayMs 1]⟩ := by
          simp [_request_retry, requestRetryGo, h0, h1, h2]
        rw [hR]
        dsimp only
        refine ⟨by omega, by omega, rfl, ?_, ?_, rfl, ?_⟩
        · intro j hj
          have hb : j ≤ 1 := by omega
          interval_cases j <;> assumption
        · intro _
          exact h2
        · intro hc
          simp [hc] at h0
    · simp only [Bool.not_eq_true] at h1
      have hR : _request_retry resp = ⟨resp 1, 2, [backoffDelayMs 0]⟩ := by
        simp [_request_retry, requestRetryGo, h0, h1]
      rw [hR]
      dsimp only
      refine ⟨by omega, by omega, rfl, ?_, ?_, rfl, ?_⟩
      · intro j hj
        have hb : j = 0 := by omega
        subst hb
        exact h0
      · intro _
        exact h1
      · intro hc
        simp [hc] at h0
  · simp only [Bool.not_eq_true] at h0
    have hR : _request_retry resp = ⟨resp 0, 1, []⟩ := by
      simp [_request_retry, requestRetryGo, h0]
    rw [hR]
    dsimp only
    refine ⟨by omega, by omega, rfl, ?_, ?_, rfl, ?_⟩
    · intro j hj
      exact absurd hj (by omega)
    · intro _
      exact h0
    · intro _
      rfl

/-- Witness for the retry-transport claim: a first response of 200 is not
retryable, so the call returns it after one attempt with no sleeps. -/
theorem retry_transport_correct_witness :
    _request_retry (fun _ => 200) = ⟨200, 1, []⟩ :=
  (retry_transport_correct (fun _ => 200)).2.2.2.2.2.2.2.2.2 (by decide)

/-! ## Claims about the stable file reader -/

/-- Claim C7, evaluated at the failing input: an xlsx temp copy whose
decoder raises makes `read_table_any` propagate the exception to its
caller (the `try` block has a `finally` but no `except`), instead of
reporting a `None` outcome as the reader's contract and caller expect;
the `finally` does delete the temp copy on every path, parse outcome or
raise alike. -/
theorem reader_xlsx_decode_error_escapes :
    (read_table_any (some (⟨".xlsx", Except.error "BadZipFile", Except.ok 0,
        Except.ok 0⟩ : TmpFile Nat))).result = Except.error "BadZipFile"
    ∧ (∀ (τ : Type) (tmp : TmpFile τ), (read_table_any (some tmp)).tmpDeleted = true)
    ∧ (∀ (τ : Type), (read_table_any (none : Option (TmpFile τ))).result = Except.ok none) := by
  refine ⟨rfl, fun τ tmp => rfl, fun τ => rfl⟩

/-! ## Claims about the debouncer -/

/-- Claim C8, counterexample: with `DEBOUNCE_SECS = 1`, an event arriving
exactly one debounce window after the last accepted one (elapsed time `1`,
which does not strictly exceed the window) is accepted by the gate, so
"accepted only if the elapsed time strictly exceeds the debounce
duration" is false on the code. -/
theorem debounce_boundary_accepted :
    (handleChangeGate 0 1).1 = true ∧ ¬ ((1 : ℚ) - 0 > DEBOUNCE_SECS) := by
  constructor
  · norm_num [handleChangeGate, DEBOUNCE_SECS]
  · norm_num [DEBOUNCE_SECS]

/-- Chain invariant for the debouncer: starting from stored timestamp
`lastEvent`, every pair of consecutive accepted timestamps (and the first
accepted one against `lastEvent`) is at least one debounce window apart. -/
theorem runDebounce_chain (ts : List ℚ) (lastEvent : ℚ) :
    List.Chain' (fun a b => DEBOUNCE_SECS ≤ b - a) (lastEvent :: runDebounce ts lastEvent) := by
  induction ts generalizing lastEvent with
  | nil => simp [runDebounce]
  | cons t ts ih =>
    by_cases h : t - lastEvent < DEBOUNCE_SECS
    · simpa [runDebounce, handleChangeGate, h] using ih lastEvent
    · have hrun : runDebounce (t :: ts) lastEvent = t :: runDebounce ts t := by
        simp [runDebounce, handleChangeGate, h]
      rw [hrun, List.chain'_cons]
      exact ⟨not_lt.mp h, ih t⟩

/-- Claim C8, amended: the gate accepts exactly when the elapsed time is
at least (not strictly more than) the debounce duration; a dropped event
leaves the stored timestamp unchanged; hence over any event sequence two
accepted events are never less than one debounce window apart. -/
theorem debounce_accepts_iff_window_elapsed :
    (∀ lastEvent now : ℚ,
        ((handleChangeGate lastEvent now).1 = true ↔ DEBOUNCE_SECS ≤ now - lastEvent))
    ∧ (∀ lastEvent now : ℚ, (handleChangeGate lastEvent now).1 = false →
        handleChangeGate lastEvent now = (false, lastEvent))
    ∧ (∀ ts lastEvent, List.Chain' (fun a b => DEBOUNCE_SECS ≤ b - a)
        (runDebounce ts lastEvent)) := by
  refine ⟨?_, ?_, ?_⟩
  · intro lastEvent now
    unfold handleChangeGate
    split_ifs with h
    · simp [not_le.mpr h]
    · simp [not_lt.mp h]
  · intro lastEvent now h
    unfold handleChangeGate at h ⊢
    split_ifs at h ⊢ with hc
    rfl
  · intro ts lastEvent
    exact (runDebounce_chain ts lastEvent).tail

/-- Witness for the amended debouncer claim: at stored timestamp `0`, an
event at time `0` is dropped (elapsed `0 < 1`), and the gate leaves the
stored timestamp at `0`. -/
theorem debounce_accepts_iff_window_elapsed_witness :
    handleChangeGate 0 0 = (false, 0) :=
  debounce_accepts_iff_window_elapsed.2.1 0 0
    (by norm_num [handleChangeGate, DEBOUNCE_SECS])

/-! ## Normalisation lemmas for the email invariant -/

/-- `Char.ofNat` round-trips on code points below the surrogate range. -/
theorem toNat_char_ofNat_of_lt (n : Nat) (h : n < 55296) : (Char.ofNat n).toNat = n := by
  unfold Char.ofNat
  rw [dif_pos (Or.inl h)]
  rfl

/-- Lowercasing is idempotent on characters. -/
theorem pyToLowerChar_idem (c : Char) : pyToLowerChar (pyToLowerChar c) = pyToLowerChar c := by
  by_cases h : 65 ≤ c.toNat ∧ c.toNat ≤ 90
  · have hd := toNat_char_ofNat_of_lt (c.toNat + 32) (by omega)
    have h1 : pyToLowerChar c = Char.ofNat (c.toNat + 32) := by
      unfold pyToLowerChar
      rw [if_pos h]
    have h2 : pyToLowerChar (Char.ofNat (c.toNat + 32)) = Char.ofNat (c.toNat + 32) := by
      unfold pyToLowerChar
      rw [if_neg]
      rw [hd]
      omega
    rw [h1, h2]
  · have h1 : pyToLowerChar c = c := by
      unfold pyToLowerChar
      rw [if_neg h]
    rw [h1, h1]

/-- Letters (and everything at or above code point 65) are not whitespace. -/
theorem pyIsSpaceChar_eq_false_of_ge (c : Char) (h1 : 65 ≤ c.toNat) :
    pyIsSpaceChar c = false := by
  simp only [pyIsSpaceChar, Bool.or_eq_false_iff, beq_eq_false_iff_ne]
  refine ⟨⟨⟨⟨⟨?_, ?_⟩, ?_⟩, ?_⟩, ?_⟩, ?_⟩ <;>
    (intro he; rw [he] at h1; revert h1; decide)

/-- Lowercasing does not change whether a character is whitespace. -/
theorem pyIsSpaceChar_pyToLowerChar (c : Char) :
    pyIsSpaceChar (pyToLowerChar c) = pyIsSpaceChar c := by
  unfold pyToLowerChar
  split_ifs with h
  · have hd := toNat_char_ofNat_of_lt (c.toNat + 32) (by omega)
    rw [pyIsSpaceChar_eq_false_of_ge _ (by rw [hd]; omega),
      pyIsSpaceChar_eq_false_of_ge _ h.1]
  · rfl

/-- `dropWhile` is idempotent. -/
theorem dropWhile_idem {α : Type} (p : α → Bool) (l : List α) :
    (l.dropWhile p).dropWhile p = l.dropWhile p := by
  induction l with
  | nil => rfl
  | cons x xs ih =>
    by_cases h : p x = true
    · simp [List.dropWhile_cons, h, ih]
    · simp [List.dropWhile_cons, h]

/-- `dropWhile` keeps a list whose head already fails the predicate. -/
theorem dropWhile_eq_self_of_head {α : Type} (p : α → Bool) (l : List α)
    (h : ∀ x ∈ l.head?, p x = false) : l.dropWhile p = l := by
  cases l with
  | nil => rfl
  | cons x xs =>
    have hx : p x = false := h x rfl
    simp [List.dropWhile_cons, hx]

/-- The head surviving `dropWhile` fails the predicate. -/
theorem head_dropWhile_false {α : Type} (p : α → Bool) (l : List α) (x : α)
    (h : x ∈ (l.dropWhile p).head?) : p x = false := by
  have hm := List.head?_dropWhile_not p l
  have hx : (l.dropWhile p).head? = some x := h
  rw [hx] at hm
  exact hm

/-- Stripping is idempotent. -/
theorem stripChars_idem (l : List Char) : stripChars (stripChars l) = stripChars l := by
  unfold stripChars
  set p := pyIsSpaceChar with hp
  set u := l.dropWhile p with hu
  set w := u.reverse.dropWhile p with hw
  have hlast : ∀ x ∈ w.getLast?, p x = false := by
    intro x hx
    have hxe : w.getLast? = some x := hx
    obtain ⟨t, ht⟩ := @List.dropWhile_suffix Char u.reverse p
    have h1 : u.reverse.getLast? = some x := by
      rw [← hw] at ht
      rw [← ht, List.getLast?_append, hxe]
      rfl
    rw [List.getLast?_reverse] at h1
    exact head_dropWhile_false p l x h1
  have hA : w.reverse.dropWhile p = w.reverse := by
    apply dropWhile_eq_self_of_head
    intro x hx
    rw [List.head?_reverse] at hx
    exact hlast x hx
  have hB : w.dropWhile p = w := by
    apply dropWhile_eq_self_of_head
    intro x hx
    exact head_dropWhile_false p u.reverse x hx
  rw [hA, List.reverse_reverse, hB]

/-- Stripping commutes with lowercasing. -/
theorem stripChars_map_lower (l : List Char) :
    stripChars (l.map pyToLowerChar) = (stripChars l).map pyToLowerChar := by
  have hpf : (pyIsSpaceChar ∘ pyToLowerChar) = pyIsSpaceChar := by
    funext c
    exact pyIsSpaceChar_pyToLowerChar c
  unfold stripChars
  rw [List.dropWhile_map, hpf, ← List.map_reverse, List.dropWhile_map, hpf, ← List.map_reverse]

/-- Lowercasing is idempotent on character lists. -/
theorem map_lower_idem (l : List Char) :
    (l.map pyToLowerChar).map pyToLowerChar = l.map pyToLowerChar := by
  have hf : pyToLowerChar ∘ pyToLowerChar = pyToLowerChar := funext pyToLowerChar_idem
  rw [List.map_map, hf]

/-- `.strip().lower()` is idempotent: applying it to an already cleaned
email leaves it unchanged. -/
theorem pyCleanEmail_idem (s : String) :
    pyLower (pyStrip (pyLower (pyStrip s))) = pyLower (pyStrip s) := by
  unfold pyLower pyStrip
  dsimp only
  rw [stripChars_map_lower, map_lower_idem, stripChars_idem]

/-- Shared shape of every entry of the mapper's output dict: values are
non-empty, and the email entry equals its own stripped-lowercased form. -/
theorem map_row_to_contact_mem (headers : List String) (values : List (Option String))
    (mapping : Option (List (String × String))) :
    ∀ kv ∈ map_row_to_contact headers values mapping,
      kv.2 ≠ "" ∧ (kv.1 = "email" → kv.2 = pyLower (pyStrip kv.2)) := by
  intro kv hkv
  unfold map_row_to_contact contactProps at hkv
  dsimp only at hkv
  have hm := List.mem_filter.mp hkv
  constructor
  · simpa using hm.2
  · intro hk
    have h1 := hm.1
    simp only [List.mem_cons, List.not_mem_nil, or_false] at h1
    obtain ⟨k, v⟩ := kv
    dsimp only at hk
    subst hk
    rcases h1 with h | h | h | h | h
    · have hv := congrArg Prod.snd h
      dsimp only at hv ⊢
      rw [hv]
      exact (pyCleanEmail_idem _).symm
    · have hf := congrArg Prod.fst h
      dsimp only at hf
      exact absurd hf (by decide)
    · have hf := congrArg Prod.fst h
      dsimp only at hf
      exact absurd hf (by decide)
    · have hf := congrArg Prod.fst h
      dsimp only at hf
      exact absurd hf (by decide)
    · have hf := congrArg Prod.fst h
      dsimp only at hf
      exact absurd hf (by decide)

/-- Claim C6: every field of the mapper's output is non-blank (empty
resolutions are omitted, never present-but-empty); an email field equals
its own whitespace-stripped lowercase form; and the property bag the CRM
create/update receives is the mapper output unchanged (re-filtering blanks
removes nothing). -/
theorem mapper_no_blank_email_normalised (headers : List String)
    (values : List (Option String)) (mapping : Option (List (String × String))) :
    (∀ kv ∈ map_row_to_contact headers values mapping, kv.2 ≠ "")
    ∧ (∀ e, ("email", e) ∈ map_row_to_contact headers values mapping →
        e = pyLower (pyStrip e))
    ∧ hubspotProps (map_row_to_contact headers values mapping)
        = map_row_to_contact headers values mapping := by
  refine ⟨?_, ?_, ?_⟩
  · intro kv hkv
    exact (map_row_to_contact_mem headers values mapping kv hkv).1
  · intro e he
    exact (map_row_to_contact_mem headers values mapping _ he).2 rfl
  · unfold hubspotProps
    apply List.filter_eq_self.mpr
    intro kv hkv
    have := (map_row_to_contact_mem headers values mapping kv hkv).1
    simpa using this


/-- Witness for the mapper invariants: the cleaned email produced from
`[" A@B.com "]` is a fixed point of strip-then-lower. -/
theorem mapper_no_blank_email_normalised_witness :
    "a@b.com" = pyLower (pyStrip "a@b.com") :=
  (mapper_no_blank_email_normalised ["Email"] [some " A@B.com "] none).2.1
    "a@b.com" (by decide)

/-- A successful association-list lookup exhibits a member. -/
theorem lookup_mem {β : Type} (k : String) (v : β) :
    ∀ l : List (String × β), l.lookup k = some v → (k, v) ∈ l := by
  intro l
  induction l with
  | nil =>
    intro h
    cases h
  | cons kv t ih =>
    obtain ⟨k', v'⟩ := kv
    intro h
    rw [List.lookup_cons] at h
    by_cases hk : (k == k') = true
    · simp only [hk] at h
      cases h
      have hke : k = k' := by simpa using hk
      rw [hke]
      exact List.mem_cons_self _ _
    · have hk' : (k == k') = false := by simpa using hk
      simp only [hk'] at h
      exact List.mem_cons_of_mem _ (ih h)

/-- Claim C9: if the mapper's output has an email key, the upsert can
never take its `skipped` branch and the logged action is never
`"unknown"` — the mapper guarantees the email is non-empty and already
stripped and lowercased, so the upsert's own cleaning leaves it truthy. -/
theorem upsert_skip_unreachable (headers : List String) (values : List (Option String))
    (mapping : Option (List (String × String))) (findRes : Option String) (newId : String)
    (hmail : (map_row_to_contact headers values mapping).lookup "email" ≠ none) :
    (∀ reason,
      upsert_contact_to_hubspot (map_row_to_contact headers values mapping) findRes newId
        ≠ UpsertRes.skippedRes reason)
    ∧ actionOfUpsert
        (upsert_contact_to_hubspot (map_row_to_contact headers values mapping) findRes newId)
        ≠ "unknown" := by
  obtain ⟨e, he⟩ : ∃ e, (map_row_to_contact headers values mapping).lookup "email" = some e := by
    cases hcase : (map_row_to_contact headers values mapping).lookup "email" with
    | none => exact absurd hcase hmail
    | some e => exact ⟨e, rfl⟩
  have hmem : ("email", e) ∈ map_row_to_contact headers values mapping :=
    lookup_mem "email" e _ he
  have hprop := map_row_to_contact_mem headers values mapping _ hmem
  have hne : e ≠ "" := hprop.1
  have hnorm : e = pyLower (pyStrip e) := hprop.2 rfl
  have hemail :
      pyLower (pyStrip (((map_row_to_contact headers values mapping).lookup "email").getD ""))
        ≠ "" := by
    rw [he]
    dsimp only [Option.getD]
    rw [← hnorm]
    exact hne
  constructor
  · intro reason
    unfold upsert_contact_to_hubspot
    rw [if_neg hemail]
    cases findRes <;> simp
  · unfold upsert_contact_to_hubspot
    rw [if_neg hemail]
    cases findRes <;> simp [actionOfUpsert]

/-- Witness for the unreachable-skip claim: mapping `["Email"] ↦
["A@B.com"]` yields an email key, and the logged action at any search
outcome is not `"unknown"`. -/
theorem upsert_skip_unreachable_witness :
    actionOfUpsert
      (upsert_contact_to_hubspot (map_row_to_contact ["Email"] [some "A@B.com"] none) none "42")
      ≠ "unknown" :=
  (upsert_skip_unreachable ["Email"] [some "A@B.com"] none none "42" (by decide)).2

/-! ## Claims about the ingestion endpoint -/

/-- No logged upsert outcome carries the `duplicate` action. -/
theorem actionOfUpsert_ne_duplicate (r : UpsertRes) : actionOfUpsert r ≠ "duplicate" := by
  cases r with
  | skippedRes reason => show "unknown" ≠ "duplicate"; decide
  | updated i => show "updated" ≠ "duplicate"; decide
  | created i => show "created" ≠ "duplicate"; decide

/-- A fresh key makes one ingestion call append exactly one event, keyed
like the call and with a non-`duplicate` action, whatever the mapping and
the CRM oracle did. -/
theorem ingest_rows_fresh_appends (db : List Event) (sid sheet : String) (ri : Int)
    (headersOpt : Option (List String)) (values : List (Option String))
    (mapping : Option (List (String × String))) (crm : Except String (Option String × String))
    (hfresh : already_processed db sid sheet ri
      (row_hash_input (headersOpt.getD []) values) = false) :
    ∃ e : Event,
      (ingest_rows db sid sheet ri headersOpt values mapping crm).db = db ++ [e]
      ∧ eventMatches e sid sheet ri (row_hash_input (headersOpt.getD []) values) = true
      ∧ e.action ≠ "duplicate" := by
  unfold ingest_rows
  dsimp only
  simp only [hfresh, Bool.false_eq_true, if_false]
  split_ifs with hemail
  · exact ⟨_, rfl, by simp [eventMatches], by show "skipped" ≠ "duplicate"; decide⟩
  · cases crm with
    | error e =>
      exact ⟨_, rfl, by simp [eventMatches], by show "error" ≠ "duplicate"; decide⟩
    | ok p =>
      obtain ⟨findRes, newId⟩ := p
      dsimp only
      refine ⟨_, rfl, by simp [eventMatches], ?_⟩
      exact actionOfUpsert_ne_duplicate _

/-- Appending an event that matches the key makes the key processed. -/
theorem already_processed_append (db : List Event) (e : Event) (sid sheet : String)
    (ri : Int) (h : String) (he : eventMatches e sid sheet ri h = true) :
    already_processed (db ++ [e]) sid sheet ri h = true := by
  unfold already_processed
  rw [List.any_append]
  simp [he]

/-- A fresh key has no matching events at all in the table. -/
theorem filter_matching_eq_nil_of_fresh (db : List Event) (sid sheet : String) (ri : Int)
    (h : String) (hfresh : already_processed db sid sheet ri h = false) :
    db.filter (fun e => eventMatches e sid sheet ri h && e.action != "duplicate") = [] := by
  apply List.filter_eq_nil_iff.mpr
  intro e he
  unfold already_processed at hfresh
  have hm : eventMatches e sid sheet ri h = false := by
    by_contra hc
    simp only [Bool.not_eq_false] at hc
    have : db.any (fun e => eventMatches e sid sheet ri h) = true :=
      List.any_eq_true.mpr ⟨e, he, hc⟩
    rw [this] at hfresh
    cases hfresh
  simp [hm]

/-- Claim C1: ingestion is idempotent.  Starting from a table with no
event for `(spreadsheetId, sheetName, rowIndex, fingerprint)`, a second
call with the same four inputs answers `duplicate`, contacts no CRM
endpoint, and leaves exactly one non-duplicate audit event for that key;
moreover whenever any prior event with the same four key fields exists —
whatever its action, including `error` — the call short-circuits to the
`duplicate` response without contacting the CRM, adding only a
`duplicate` event. -/
theorem ingest_rows_idempotent (db : List Event) (sid sheet : String) (ri : Int)
    (headersOpt : Option (List String)) (values : List (Option String))
    (mapping : Option (List (String × String)))
    (crm1 crm2 : Except String (Option String × String)) :
    (already_processed db sid sheet ri (row_hash_input (headersOpt.getD []) values) = false →
      (ingest_rows (ingest_rows db sid sheet ri headersOpt values mapping crm1).db
          sid sheet ri headersOpt values mapping crm2).resp = Except.ok IngestResp.dup
      ∧ (ingest_rows (ingest_rows db sid sheet ri headersOpt values mapping crm1).db
          sid sheet ri headersOpt values mapping crm2).crmContacted = false
      ∧ ((ingest_rows (ingest_rows db sid sheet ri headersOpt values mapping crm1).db
            sid sheet ri headersOpt values mapping crm2).db.filter
          (fun e => eventMatches e sid sheet ri (row_hash_input (headersOpt.getD []) values)
            && e.action != "duplicate")).length = 1)
    ∧ (already_processed db sid sheet ri (row_hash_input (headersOpt.getD []) values) = true →
        ingest_rows db sid sheet ri headersOpt values mapping crm2
          = ⟨log_event db sid sheet ri (row_hash_input (headersOpt.getD []) values)
              "" "duplicate" "",
             Except.ok IngestResp.dup, false⟩) := by
  constructor
  · intro hfresh
    obtain ⟨e1, hdb1, hm1, ha1⟩ :=
      ingest_rows_fresh_appends db sid sheet ri headersOpt values mapping crm1 hfresh
    have hproc : already_processed (ingest_rows db sid sheet ri headersOpt values mapping crm1).db
        sid sheet ri (row_hash_input (headersOpt.getD []) values) = true := by
      rw [hdb1]
      exact already_processed_append db e1 sid sheet ri _ hm1
    have h2 : ∀ db1 : List Event,
        already_processed db1 sid sheet ri (row_hash_input (headersOpt.getD []) values) = true →
        ingest_rows db1 sid sheet ri headersOpt values mapping crm2
          = ⟨log_event db1 sid sheet ri (row_hash_input (headersOpt.getD []) values)
              "" "duplicate" "",
             Except.ok IngestResp.dup, false⟩ := by
      intro db1 hp
      unfold ingest_rows
      dsimp only
      simp only [hp, if_true]
    rw [h2 _ hproc]
    refine ⟨rfl, rfl, ?_⟩
    unfold log_event
    rw [hdb1, List.append_assoc, List.filter_append,
      filter_matching_eq_nil_of_fresh db sid sheet ri _ hfresh]
    have hkeep : (fun e => eventMatches e sid sheet ri
        (row_hash_input (headersOpt.getD []) values) && e.action != "duplicate") e1 = true := by
      simp [hm1, bne_iff_ne.mpr ha1]
    have hdup : ∀ dupe : Event, dupe.action = "duplicate" →
        (fun e => eventMatches e sid sheet ri
          (row_hash_input (headersOpt.getD []) values) && e.action != "duplicate") dupe = false := by
      intro dupe hd
      simp [hd]
    simp [List.filter_cons, hkeep, hdup]
  · intro hseen
    unfold ingest_rows
    dsimp only
    simp only [hseen, if_true]

/-- Witness for the idempotency claim: a fresh table, one successful
create, then the same row again — the second call answers `duplicate`. -/
theorem ingest_rows_idempotent_witness :
    (ingest_rows (ingest_rows [] "sheet-1" "Sheet1" 0 (some ["Email"]) [some "a@b.com"] none
        (Except.ok (none, "99"))).db "sheet-1" "Sheet1" 0 (some ["Email"]) [some "a@b.com"] none
        (Except.ok (none, "99"))).resp = Except.ok IngestResp.dup :=
  ((ingest_rows_idempotent [] "sheet-1" "Sheet1" 0 (some ["Email"]) [some "a@b.com"] none
      (Except.ok (none, "99")) (Except.ok (none, "99"))).1 (by decide)).1

/-! ## Fingerprint sensitivity lemmas -/

/-- `pyJoinPipe` at the character level. -/
theorem data_pyJoinPipe : ∀ l : List String, (pyJoinPipe l).data = charJoin (l.map String.data)
  | [] => rfl
  | [s] => rfl
  | s :: t :: rest => by
    show (s ++ "|" ++ pyJoinPipe (t :: rest)).data
        = s.data ++ '|' :: charJoin ((t :: rest).map String.data)
    rw [String.data_append, String.data_append, data_pyJoinPipe (t :: rest)]
    simp

/-- Length of a character-level join. -/
theorem charJoin_length : ∀ xs : List (List Char),
    (charJoin xs).length = (xs.map List.length).sum + (xs.length - 1)
  | [] => rfl
  | [s] => by simp [charJoin]
  | s :: t :: rest => by
    have ih := charJoin_length (t :: rest)
    show (s ++ '|' :: charJoin (t :: rest)).length = _
    rw [List.length_append]
    simp only [List.length_cons, List.map_cons, List.sum_cons] at ih ⊢
    omega

/-- Two pipe-free prefixes before an explicit pipe can be peeled off. -/
theorem pipe_split : ∀ (a b u v : List Char),
    (∀ c ∈ a, c ≠ '|') → (∀ c ∈ b, c ≠ '|') →
    a ++ '|' :: u = b ++ '|' :: v → a = b ∧ u = v := by
  intro a
  induction a with
  | nil =>
    intro b u v _ hb h
    cases b with
    | nil => simpa using h
    | cons x xs =>
      simp only [List.nil_append, List.cons_append] at h
      injection h with h1 h2
      exact absurd h1.symm (hb x (List.mem_cons_self x xs))
  | cons y ys ih =>
    intro b u v ha hb h
    cases b with
    | nil =>
      simp only [List.cons_append, List.nil_append] at h
      injection h with h1 h2
      exact absurd h1 (ha y (List.mem_cons_self y ys))
    | cons x xs =>
      simp only [List.cons_append] at h
      injection h with h1 h2
      obtain ⟨hl, hr⟩ := ih xs u v
        (fun c hc => ha c (List.mem_cons_of_mem _ hc))
        (fun c hc => hb c (List.mem_cons_of_mem _ hc)) h2
      exact ⟨by rw [h1, hl], hr⟩

/-- `charJoin` is injective on equal-length lists of pipe-free cells. -/
theorem charJoin_inj : ∀ xs ys : List (List Char),
    xs.length = ys.length →
    (∀ s ∈ xs, ∀ c ∈ s, c ≠ '|') → (∀ s ∈ ys, ∀ c ∈ s, c ≠ '|') →
    charJoin xs = charJoin ys → xs = ys := by
  intro xs
  induction xs with
  | nil =>
    intro ys hlen _ _ _
    cases ys with
    | nil => rfl
    | cons y ys2 => simp at hlen
  | cons x xs ih =>
    intro ys hlen hx hy hj
    cases ys with
    | nil => simp at hlen
    | cons y ys2 =>
      cases xs with
      | nil =>
        cases ys2 with
        | nil =>
          show [x] = [y]
          have hxy : x = y := hj
          rw [hxy]
        | cons z zs => simp at hlen
      | cons x2 xs2 =>
        cases ys2 with
        | nil => simp at hlen
        | cons y2 ys3 =>
          have hsplit := pipe_split x y (charJoin (x2 :: xs2)) (charJoin (y2 :: ys3))
            (hx x (List.mem_cons_self _ _)) (hy y (List.mem_cons_self _ _)) hj
          have htail := ih (y2 :: ys3) (by simpa using hlen)
            (fun s hs => hx s (List.mem_cons_of_mem _ hs))
            (fun s hs => hy s (List.mem_cons_of_mem _ hs)) hsplit.2
          rw [hsplit.1, htail]

/-- `pipeFree` unpacked to a membership statement. -/
theorem pipeFree_iff (s : String) : pipeFree s = true ↔ ∀ c ∈ s.data, c ≠ '|' := by
  simp only [pipeFree, Bool.not_eq_true', ← Bool.not_eq_true]
  constructor
  · intro h c hc he
    rw [List.contains_eq_any_beq] at h
    have hany : (s.data.any fun x => '|' == x) = true :=
      List.any_eq_true.mpr ⟨c, hc, by simp [he]⟩
    rw [hany] at h
    exact h rfl
  · intro h hc
    rw [List.contains_eq_any_beq] at hc
    obtain ⟨c, hcm, hcb⟩ := List.any_eq_true.mp hc
    have hce : '|' = c := by simpa using hcb
    exact h c hcm hce.symm

/-- `str(x)` undoes `some` on string cells. -/
theorem map_pyStr_some (v : List String) : (v.map some).map pyStr = v := by
  rw [List.map_map]
  have h : (pyStr ∘ some) = fun s : String => s := by
    funext s
    rfl
  rw [h, List.map_id']

/-- Claim C2, amended: the fingerprint is deterministic (equal header and
value sequences give an identical digest input, hence identical digest),
and it is order- and content-sensitive in the delimiter-safe form: when no
header or value contains `"|"`, the header counts, total header text
length, and value counts agree, distinct `(headers, values)` give
distinct SHA-256 inputs — hence distinct digests short of a SHA-256
collision.  (The side conditions are forced by the counterexample.) -/
theorem row_hash_deterministic_and_sensitive :
    (∀ (h1 h2 : List String) (v1 v2 : List (Option String)),
      h1 = h2 → v1 = v2 → row_hash_input h1 v1 = row_hash_input h2 v2)
    ∧ (∀ h1 h2 v1 v2 : List String,
      (∀ s ∈ h1, pipeFree s = true) → (∀ s ∈ h2, pipeFree s = true) →
      (∀ s ∈ v1, pipeFree s = true) → (∀ s ∈ v2, pipeFree s = true) →
      h1.length = h2.length →
      (h1.map String.length).sum = (h2.map String.length).sum →
      v1.length = v2.length →
      row_hash_input h1 (v1.map some) = row_hash_input h2 (v2.map some) →
      h1 = h2 ∧ v1 = v2) := by
  constructor
  · intro h1 h2 v1 v2 hh hv
    rw [hh, hv]
  · intro h1 h2 v1 v2 hp1 hp2 hq1 hq2 hlen hsum hvlen heq
    unfold row_hash_input at heq
    rw [List.map_id', List.map_id', map_pyStr_some, map_pyStr_some] at heq
    have hdata := congrArg String.data heq
    rw [String.data_append, String.data_append, data_pyJoinPipe, data_pyJoinPipe,
      data_pyJoinPipe, data_pyJoinPipe] at hdata
    have hlenmap : ∀ l : List String, (l.map String.data).map List.length = l.map String.length := by
      intro l
      rw [List.map_map]
      rfl
    have hjlen : (charJoin (h1.map String.data)).length
        = (charJoin (h2.map String.data)).length := by
      rw [charJoin_length, charJoin_length, hlenmap, hlenmap, hsum,
        List.length_map, List.length_map, hlen]
    have hsplit := List.append_inj hdata hjlen
    have hpf : ∀ l : List String, (∀ s ∈ l, pipeFree s = true) →
        ∀ s ∈ l.map String.data, ∀ c ∈ s, c ≠ '|' := by
      intro l hl s hs
      obtain ⟨t, htl, hts⟩ := List.mem_map.mp hs
      rw [← hts]
      exact (pipeFree_iff t).mp (hl t htl)
    have hinj : Function.Injective String.data := fun a b hab => String.ext hab
    constructor
    · apply List.map_injective_iff.mpr hinj
      exact charJoin_inj (h1.map String.data) (h2.map String.data)
        (by rw [List.length_map, List.length_map, hlen])
        (hpf h1 hp1) (hpf h2 hp2) hsplit.1
    · apply List.map_injective_iff.mpr hinj
      exact charJoin_inj (v1.map String.data) (v2.map String.data)
        (by rw [List.length_map, List.length_map, hvlen])
        (hpf v1 hq1) (hpf v2 hq2) hsplit.2

/-- Witness for the amended fingerprint claim, at pipe-free inputs of
matching shape. -/
theorem row_hash_deterministic_and_sensitive_witness :
    (["a"] : List String) = ["a"] ∧ (["b"] : List String) = ["b"] :=
  row_hash_deterministic_and_sensitive.2 ["a"] ["a"] ["b"] ["b"]
    (by decide) (by decide) (by decide) (by decide) rfl rfl rfl rfl
